import Mathlib

/-! xombrero: the external editor round trip (`externaleditor.c`)

A shallow embedding of `update_contents`, `external_editor_closed`,
`open_external_editor_cb` and `open_external_editor`, and the properties of
the external-editor session proved (or refuted) on it.

Modelling conventions.

* Bytes are `Char`, byte strings are `List Char`; the NUL byte is `NUL`.
* Pointers (`struct tab *`, callback function pointers, `cb_data`, pids) are
  natural numbers compared by identity; a NULL function pointer is `none`.
* `int`, `time_t` and `size_t` values are unbounded `Int`/`Nat`: every count in
  the modelled functions is bounded by the length of a string held in memory.
* The outside world (file system, tab list, event-loop registrations, the log
  of callback invocations) is an explicit `World` value threaded through the
  functions; results of system calls that the world does not determine are
  read from an explicit environment record.
* A store outside an array is undefined behaviour: `Run.fault`.
-/

namespace Xombrero

/-! ## Results of running C code -/

/-- Outcome of running a C function in the model. -/
inductive Run (α : Type) where
  /-- the function ran to its end and produced a value -/
  | done (a : α)
  /-- undefined behaviour: an access outside an object -/
  | fault
  /-- the loop bound of the model was exhausted -/
  | diverge
deriving Repr, DecidableEq

/-! ## Constants and globals the file takes from `xombrero.h` -/

/-- Macros and global settings that `externaleditor.c` uses but does not define. -/
structure Globals where
  /-- the macro `XT_EE_BUFSZ`: size of the read buffer and write chunk -/
  XT_EE_BUFSZ : Nat
  /-- the macro `PS`: path separator -/
  PS : List Char
  /-- the macro `PATH_MAX` -/
  PATH_MAX : Nat
  /-- the setting `external_editor` (NULL when not configured) -/
  external_editor : Option (List Char)
  /-- the setting `temp_dir` -/
  temp_dir : List Char

/-! ## Data model -/

/-- The NUL byte. -/
def NUL : Char := Char.ofNat 0

/-- The C string stored at the start of a byte buffer: the bytes before the first NUL. -/
def cstr (buf : List Char) : List Char :=
  buf.takeWhile (fun c => c != NUL)

/-- The struct `external_editor_args`. -/
structure external_editor_args where
  child_pid : Nat
  path : List Char
  mtime : Int
  tab : Nat
  callback : Option Nat
  cb_data : Nat
deriving Repr, DecidableEq

/-- A regular file: modification time (`st_mtime`) and bytes. -/
structure File where
  mtime : Int
  data : List Char
deriving Repr, DecidableEq

/-- One invocation `fn(contents, cb_data)` of a session callback. -/
structure Call where
  fn : Nat
  contents : List Char
  cb_data : Nat
deriving Repr, DecidableEq

/-- The state outside the functions of `externaleditor.c`. -/
structure World where
  /-- the global list `tabs` of live tabs -/
  tabs : List Nat
  /-- the files that exist, by path -/
  fs : List (List Char × File)
  /-- invocations of session callbacks, oldest first -/
  calls : List Call
  /-- tabs on which `show_oops` displayed a message, oldest first (the text is not modelled) -/
  oops : List Nat
  /-- pids handed to `g_spawn_close_pid` -/
  closed_pids : List Nat
  /-- sessions registered with `g_timeout_add(100, open_external_editor_cb, a)` -/
  timers : List external_editor_args
  /-- sessions registered with `g_child_watch_add(pid, external_editor_closed, a)` -/
  watches : List (Nat × external_editor_args)
  /-- calls of `g_spawn_async`: the argument vector and the child pid (`none` when it failed) -/
  spawns : List (List (List Char) × Option Nat)
deriving Repr, DecidableEq

/-- Results of the system calls of `update_contents` that the world does not determine. -/
structure Env where
  /-- whether `stat` fails with an errno other than ENOENT -/
  stat_fail : Bool
  /-- whether `open` returns -1 -/
  open_fail : Bool
  /-- index (from 0) of the `read` call that returns a negative count, if any -/
  read_fail : Option Nat
  /-- what the uninitialised stack buffer `buf` happens to hold -/
  junk : List Char
deriving Repr, DecidableEq

/-! ## System calls -/

/-- Result of `stat(path, &st)`. -/
inductive StatRes where
  /-- the case `rv == -1 && errno == ENOENT` -/
  | enoent
  /-- the case `rv == -1` with another errno -/
  | error
  /-- the case `rv == 0`, with `st.st_mtime` -/
  | ok (st_mtime : Int)
deriving Repr, DecidableEq

/-- The call `stat(path, &st)`. -/
def stat (env : Env) (w : World) (path : List Char) : StatRes :=
  if env.stat_fail then StatRes.error
  else match w.fs.lookup path with
    | none => StatRes.enoent
    | some f => StatRes.ok f.mtime

/-- The call `open(path, O_RDONLY)`: the bytes readable through the descriptor, `none` for -1. -/
def open_rdonly (env : Env) (w : World) (path : List Char) : Option (List Char) :=
  if env.open_fail then none
  else match w.fs.lookup path with
    | none => none
    | some f => some f.data

/-- The call `unlink(path)`, taken to succeed whenever the file exists. -/
def unlink (w : World) (path : List Char) : World :=
  { w with fs := w.fs.filter (fun e => e.1 != path) }

/-- The loop `TAILQ_FOREACH(t, &tabs, entry) if (t == args->tab) { found_tab = 1; break; }`. -/
def find_tab : List Nat → Nat → Bool
  | [], _ => false
  | t :: rest, tab => if t = tab then true else find_tab rest tab

/-! ## `update_contents` -/

/-- The array `char buf[XT_EE_BUFSZ]` before the first read. -/
def buf_init (g : Globals) (env : Env) : List Char :=
  (env.junk ++ List.replicate g.XT_EE_BUFSZ NUL).take g.XT_EE_BUFSZ

/-- The effect of `read` on the buffer: the bytes read overwrite its start. -/
def buf_fill (buf chunk : List Char) : List Char :=
  chunk ++ buf.drop chunk.length

/-- The assignment `buf[i] = c` on `char buf[XT_EE_BUFSZ]`; `none` when `i` is outside the array. -/
def buf_store (g : Globals) (buf : List Char) (i : Nat) (c : Char) : Option (List Char) :=
  if i < g.XT_EE_BUFSZ then some (buf.set i c) else none

/-- The loop `for (;;) { nb = read(fd, buf, XT_EE_BUFSZ); ... }` of `update_contents`.
`k` counts the reads made so far, `rest` is what the descriptor has not yet delivered,
`contents` the GString. The result is `some` of the final GString, or `none` after a read error
(the `nb < 0` branch). -/
def read_loop (g : Globals) (env : Env) :
    Nat → Nat → List Char → List Char → List Char → Run (Option (List Char))
  | 0, _, _, _, _ => Run.diverge
  | fuel + 1, k, rest, buf, contents =>
    if env.read_fail = some k then Run.done none
    else
      let chunk := rest.take g.XT_EE_BUFSZ
      let nb := chunk.length
      match buf_store g (buf_fill buf chunk) nb NUL with
      | none => Run.fault
      | some buf1 =>
        let contents1 := contents ++ cstr buf1
        if nb < g.XT_EE_BUFSZ then Run.done (some contents1)
        else read_loop g env fuel (k + 1) (rest.drop g.XT_EE_BUFSZ) buf1 contents1

/-- The read loop as it would run with the array declared `char buf[XT_EE_BUFSZ + 1]`: the same
statements, with room for the NUL after a full chunk. Not in the source; used to show what the
loop computes once the store is in bounds. -/
def read_loop_roomy (g : Globals) (env : Env) :
    Nat → Nat → List Char → List Char → List Char → Run (Option (List Char))
  | 0, _, _, _, _ => Run.diverge
  | fuel + 1, k, rest, buf, contents =>
    if env.read_fail = some k then Run.done none
    else
      let chunk := rest.take g.XT_EE_BUFSZ
      let nb := chunk.length
      if nb < g.XT_EE_BUFSZ + 1 then
        let buf1 := (buf_fill buf chunk).set nb NUL
        let contents1 := contents ++ cstr buf1
        if nb < g.XT_EE_BUFSZ then Run.done (some contents1)
        else read_loop_roomy g env fuel (k + 1) (rest.drop g.XT_EE_BUFSZ) buf1 contents1
      else Run.fault

/-- The function `update_contents`: return value, the updated `*args`, the updated world. -/
def update_contents (g : Globals) (env : Env) (w : World) (args : external_editor_args) :
    Run (Int × external_editor_args × World) :=
  match stat env w args.path with
  | StatRes.enoent => Run.done (1, args, w)
  | StatRes.error => Run.done (0, args, w)
  | StatRes.ok st_mtime =>
    if st_mtime > args.mtime then
      let args1 := { args with mtime := st_mtime }
      match open_rdonly env w args1.path with
      | none => Run.done (0, args1, w)
      | some data =>
        match read_loop g env (data.length + 1) 0 data (buf_init g env) [] with
        | Run.fault => Run.fault
        | Run.diverge => Run.diverge
        | Run.done none =>
          Run.done (0, args1, { w with oops := w.oops ++ [args1.tab] })
        | Run.done (some contents) =>
          match args1.callback with
          | some fn =>
            Run.done (0, args1,
              { w with calls := w.calls ++ [{ fn := fn, contents := contents, cb_data := args1.cb_data }] })
          | none => Run.done (0, args1, w)
    else Run.done (0, args, w)

/-! ## `external_editor_closed` and `open_external_editor_cb` -/

/-- The function `external_editor_closed(pid, status, data)`: the updated `*args` and world. -/
def external_editor_closed (g : Globals) (env : Env) (w : World) (pid : Nat) (_status : Int)
    (args : external_editor_args) : Run (external_editor_args × World) :=
  let finish := fun (a : external_editor_args) (w1 : World) =>
    let w2 := unlink w1 a.path
    (a, { w2 with closed_pids := w2.closed_pids ++ [pid] })
  if !find_tab w.tabs args.tab then Run.done (finish args w)
  else
    match update_contents g env w args with
    | Run.fault => Run.fault
    | Run.diverge => Run.diverge
    | Run.done (_, args1, w1) => Run.done (finish args1 w1)

/-- The function `open_external_editor_cb(data)`: return value, the session block (`none` once
`g_free(args)` released it), the updated world. -/
def open_external_editor_cb (g : Globals) (env : Env) (w : World) (args : external_editor_args) :
    Run (Int × Option external_editor_args × World) :=
  if !find_tab w.tabs args.tab then Run.done (0, none, w)
  else
    match update_contents g env w args with
    | Run.fault => Run.fault
    | Run.diverge => Run.diverge
    | Run.done (rv, args1, w1) =>
      if rv != 0 then Run.done (0, none, w1)
      else Run.done (1, some args1, w1)

/-! ## GLib string functions used to build the command line

`g_strsplit`, `g_strjoinv` and `g_strsplit_set` belong to GLib; the definitions follow the GLib
reference manual for a non-empty delimiter and `max_tokens = -1`. -/

/-- Worker of `g_strsplit` for `max_tokens = -1`: scans the string for the leftmost occurrences
of `delim`. `skip` is the number of bytes of a matched delimiter still to step over, `cur` the
piece collected since the last occurrence. -/
def g_strsplit_go (delim : List Char) : Nat → List Char → List Char → List (List Char)
  | _, [], cur => [cur]
  | skip + 1, _ :: s, cur => g_strsplit_go delim skip s cur
  | 0, c :: s, cur =>
    if delim.isPrefixOf (c :: s) then cur :: g_strsplit_go delim (delim.length - 1) s []
    else g_strsplit_go delim 0 s (cur ++ [c])

/-- The call `g_strsplit(string, delim, -1)` for a non-empty `delim`: the pieces of `string`
between the occurrences of `delim`, and the empty vector for the empty string. -/
def g_strsplit (string delim : List Char) : List (List Char) :=
  if string = [] then [] else g_strsplit_go delim 0 string []

/-- The call `g_strjoinv(separator, str_array)`. -/
def g_strjoinv (separator : List Char) : List (List Char) → List Char
  | [] => []
  | [x] => x
  | x :: y :: rest => x ++ separator ++ g_strjoinv separator (y :: rest)

/-- Worker of `g_strsplit_set` for `max_tokens = -1`: every byte of `delims` ends a token. -/
def g_strsplit_set_go (delims : List Char) : List Char → List Char → List (List Char)
  | [], cur => [cur]
  | c :: s, cur =>
    if delims.contains c then cur :: g_strsplit_set_go delims s []
    else g_strsplit_set_go delims s (cur ++ [c])

/-- The call `g_strsplit_set(string, delims, -1)`: the empty vector for the empty string. -/
def g_strsplit_set (string delims : List Char) : List (List Char) :=
  if string = [] then [] else g_strsplit_set_go delims string []

/-- The placeholder `"<file>"`. -/
def file_token : List Char := "<file>".toList

/-- The delimiter set `" \t"`. -/
def blanks : List Char := [Char.ofNat 32, Char.ofNat 9]

/-- The value of `cmdstr` in `open_external_editor`. -/
def cmdstr (external_editor filename : List Char) : List Char :=
  g_strjoinv filename (g_strsplit external_editor file_token)

/-- The vector `sv` that `open_external_editor` passes to `g_spawn_async`. -/
def spawn_argv (external_editor filename : List Char) : List (List Char) :=
  g_strsplit_set (cmdstr external_editor filename) blanks

/-! ## `open_external_editor` -/

/-- Results of the system calls of `open_external_editor` that the world does not determine. -/
structure LaunchEnv where
  /-- the call `g_mkstemp(template)`: the name of the file it created, `none` for -1 -/
  mkstemp : List Char → Option (List Char)
  /-- the clock: modification time given to the file that is written -/
  now : Int
  /-- the value returned by the `k`-th `write` call (from 0) when asked for `cnt` bytes -/
  write : Nat → Nat → Int
  /-- whether `fstat` returns -1 -/
  fstat_fail : Bool
  /-- the call `g_spawn_async(argv)`: the pid of the child, `none` for FALSE -/
  spawn : List (List Char) → Option Nat

/-- The loop `while (contents && nb < strlen(contents)) { ... }` of `open_external_editor`.
`k` counts the `write` calls made so far, `written` is what the file holds. The result is `true`
when the loop ended normally and `false` when a `write` returned a negative value, with the
bytes the file holds. -/
def write_loop (g : Globals) (le : LaunchEnv) (contents : List Char) :
    Nat → Nat → Nat → List Char → Run (Bool × List Char)
  | 0, _, _, _ => Run.diverge
  | fuel + 1, k, nb, written =>
    if nb < contents.length then
      let cnt := if contents.length - nb > g.XT_EE_BUFSZ then g.XT_EE_BUFSZ
        else contents.length - nb
      let rv := le.write k cnt
      if rv < 0 then Run.done (false, written)
      else
        write_loop g le contents fuel (k + 1) (nb + rv.toNat)
          (written ++ (((contents.drop nb).take cnt).take rv.toNat))
    else Run.done (true, written)

/-- The count `cnt` that the write loop asks `write` for when `nb` bytes are written. -/
def write_cnt (g : Globals) (contents : List Char) (nb : Nat) : Nat :=
  if contents.length - nb > g.XT_EE_BUFSZ then g.XT_EE_BUFSZ else contents.length - nb

/-- The value of `nb` before the `k`-th `write` call (from 0) of the write loop, while no call
has returned a negative value. -/
def write_pos (g : Globals) (le : LaunchEnv) (contents : List Char) : Nat → Nat
  | 0 => 0
  | k + 1 =>
    write_pos g le contents k
      + (le.write k (write_cnt g contents (write_pos g le contents k))).toNat

/-- The write loop makes its `j`-th `write` call, and that call is the first to return a
negative value. -/
def write_fails_at (g : Globals) (le : LaunchEnv) (contents : List Char) (j : Nat) : Prop :=
  write_pos g le contents j < contents.length ∧
  (∀ i, i < j → 0 ≤ le.write i (write_cnt g contents (write_pos g le contents i))) ∧
  le.write j (write_cnt g contents (write_pos g le contents j)) < 0

/-- The write loop ends normally after `n` calls of `write`, none of which returned a negative
value. -/
def writes_complete (g : Globals) (le : LaunchEnv) (contents : List Char) (n : Nat) : Prop :=
  contents.length ≤ write_pos g le contents n ∧
  ∀ i, i < n → write_pos g le contents i < contents.length ∧
    0 ≤ le.write i (write_cnt g contents (write_pos g le contents i))

instance write_fails_at_decidable (g : Globals) (le : LaunchEnv) (contents : List Char)
    (j : Nat) :
    Decidable (write_fails_at g le contents j) := by
  unfold write_fails_at; exact inferInstance

instance writes_complete_decidable (g : Globals) (le : LaunchEnv) (contents : List Char)
    (n : Nat) :
    Decidable (writes_complete g le contents n) := by
  unfold writes_complete; exact inferInstance

/-- The file at `path` is created or replaced. -/
def put_file (w : World) (path : List Char) (f : File) : World :=
  { w with fs := (path, f) :: w.fs.filter (fun e => e.1 != path) }

/-- The function `open_external_editor(t, contents, callback, cb_data)`: return value and the
updated world. `contents` is `none` for a NULL pointer; `fuel` bounds the write loop. -/
def open_external_editor (g : Globals) (le : LaunchEnv) (fuel : Nat) (w : World) (t : Nat)
    (contents : Option (List Char)) (callback : Option Nat) (cb_data : Nat) :
    Run (Int × World) :=
  match g.external_editor with
  | none => Run.done (0, w)
  | some editor =>
    let template := (g.temp_dir ++ g.PS ++ "xombreroXXXXXX".toList).take (g.PATH_MAX - 1)
    match le.mkstemp template with
    | none => Run.done (1, { w with oops := w.oops ++ [t] })
    | some filename =>
      match write_loop g le (contents.getD []) fuel 0 0 [] with
      | Run.fault => Run.fault
      | Run.diverge => Run.diverge
      | Run.done (ok, written) =>
        let w1 := put_file w filename { mtime := le.now, data := written }
        if !ok then Run.done (1, { w1 with oops := w1.oops ++ [t] })
        else if le.fstat_fail then Run.done (1, { w1 with oops := w1.oops ++ [t] })
        else
          let sv := spawn_argv editor filename
          match le.spawn sv with
          | none =>
            Run.done (1, { w1 with oops := w1.oops ++ [t], spawns := w1.spawns ++ [(sv, none)] })
          | some pid =>
            let a : external_editor_args :=
              { child_pid := pid, path := filename, tab := t, mtime := le.now,
                callback := callback, cb_data := cb_data }
            Run.done (0, { w1 with
              spawns := w1.spawns ++ [(sv, some pid)],
              timers := w1.timers ++ [a],
              watches := w1.watches ++ [(pid, a)] })

/-! ## The command line as the specification describes it -/

/-- Every occurrence of `pat` in a string replaced by `rep`, scanning from the left;
`skip` is the number of bytes of a matched occurrence still to step over. -/
def replace_all (pat rep : List Char) : Nat → List Char → List Char
  | _, [] => []
  | skip + 1, _ :: s => replace_all pat rep skip s
  | 0, c :: s =>
    if pat.isPrefixOf (c :: s) then rep ++ replace_all pat rep (pat.length - 1) s
    else c :: replace_all pat rep 0 s

/-- The template with every `<file>` replaced by the path. -/
def substituted (template path : List Char) : List Char :=
  replace_all file_token path 0 template

/-- Space or tab. -/
def is_blank (c : Char) : Bool := c = Char.ofNat 32 || c = Char.ofNat 9

/-- The maximal blank-free words of a line, in order; `cur` is the word being read. -/
def words_go : List Char → List Char → List (List Char)
  | [], cur => if cur = [] then [] else [cur]
  | c :: s, cur =>
    if is_blank c then (if cur = [] then words_go s [] else cur :: words_go s [])
    else words_go s (cur ++ [c])

/-- The maximal blank-free words of a line, in order. -/
def words (line : List Char) : List (List Char) := words_go line []

/-! ## The event loop driving one session -/

/-- One session as the GLib main loop sees it. -/
structure Sys where
  world : World
  /-- the `g_malloc`ed session block that both sources hold as `data`; `none` once freed -/
  sess : Option external_editor_args
  /-- whether the 100 ms timeout source is still installed -/
  timer : Bool
deriving Repr, DecidableEq

/-- The timeout source fires once. A removed source is not called; a source whose callback
returns 0 is removed. The second component is the value the callback returned, if it ran. -/
def poll_tick (g : Globals) (env : Env) (s : Sys) : Run (Sys × Option Int) :=
  if !s.timer then Run.done (s, none)
  else
    match s.sess with
    | none => Run.fault
    | some a =>
      match open_external_editor_cb g env s.world a with
      | Run.fault => Run.fault
      | Run.diverge => Run.diverge
      | Run.done (rv, a1, w1) =>
        Run.done ({ world := w1, sess := a1, timer := rv != 0 }, some rv)

/-- Consecutive firings of the timeout source, one per environment in the list, with the
values the callback returned. -/
def poll_ticks (g : Globals) : List Env → Sys → Run (Sys × List (Option Int))
  | [], s => Run.done (s, [])
  | env :: envs, s =>
    match poll_tick g env s with
    | Run.fault => Run.fault
    | Run.diverge => Run.diverge
    | Run.done (s1, rv) =>
      match poll_ticks g envs s1 with
      | Run.fault => Run.fault
      | Run.diverge => Run.diverge
      | Run.done (s2, rvs) => Run.done (s2, rv :: rvs)

/-- The child watch fires: `external_editor_closed(pid, status, data)`. -/
def child_exit (g : Globals) (env : Env) (status : Int) (s : Sys) : Run Sys :=
  match s.sess with
  | none => Run.fault
  | some a =>
    match external_editor_closed g env s.world a.child_pid status a with
    | Run.fault => Run.fault
    | Run.diverge => Run.diverge
    | Run.done (a1, w1) => Run.done { s with world := w1, sess := some a1 }

/-- The exit notification followed by later firings of the timeout source. -/
def exit_then_ticks (g : Globals) (env : Env) (status : Int) (envs : List Env) (s : Sys) :
    Run (Sys × List (Option Int)) :=
  match child_exit g env status s with
  | Run.fault => Run.fault
  | Run.diverge => Run.diverge
  | Run.done s1 => poll_ticks g envs s1

/-- Firings of the timeout source followed by the exit notification. -/
def ticks_then_exit (g : Globals) (envs : List Env) (env : Env) (status : Int) (s : Sys) :
    Run Sys :=
  match poll_ticks g envs s with
  | Run.fault => Run.fault
  | Run.diverge => Run.diverge
  | Run.done (s1, _) => child_exit g env status s1

/-- The value a C function returned, when it ran to its end. -/
def return_value {α : Type} : Run (Int × α) → Option Int
  | Run.done (rv, _) => some rv
  | Run.fault => none
  | Run.diverge => none

/-! ## Sample values at which the theorems are instantiated -/

/-- Globals with a four-byte buffer and the editor command `vi <file>`. -/
def sample_globals : Globals :=
  { XT_EE_BUFSZ := 4, PS := "/".toList, PATH_MAX := 64,
    external_editor := some "vi <file>".toList, temp_dir := "/tmp".toList }

/-- An environment in which every system call succeeds. -/
def sample_env : Env :=
  { stat_fail := false, open_fail := false, read_fail := none, junk := "zzzzzz".toList }

/-- A session on tab 1 whose file was last seen at time 0. -/
def sample_args : external_editor_args :=
  { child_pid := 7, path := "/tmp/x".toList, mtime := 0, tab := 1, callback := some 5,
    cb_data := 9 }

/-- A world with the given live tabs and files and nothing else. -/
def sample_world (tabs : List Nat) (fs : List (List Char × File)) : World :=
  { tabs := tabs, fs := fs, calls := [], oops := [], closed_pids := [], timers := [],
    watches := [], spawns := [] }

/-- The session file holding `data`, modified at time `mtime`. -/
def sample_file (mtime : Int) (data : String) : List (List Char × File) :=
  [("/tmp/x".toList, { mtime := mtime, data := data.toList })]

/-- The session `sample_args` in world `w`, with its timer installed. -/
def sample_sys (w : World) : Sys :=
  { world := w, sess := some sample_args, timer := true }

/-- A launch environment in which `g_mkstemp` names the file `...a1b2c3`, each `write` stores at
most three bytes, and the child gets pid 77. -/
def sample_launch : LaunchEnv :=
  { mkstemp := fun t => some (t.take (t.length - 6) ++ "a1b2c3".toList), now := 10,
    write := fun _ cnt => min cnt 3, fstat_fail := false, spawn := fun _ => some 77 }

/-- The name `g_mkstemp` gives the file under `sample_globals` and `sample_launch`. -/
def sample_filename : List Char := "/tmp/xombreroa1b2c3".toList

/-- A world in which tab 1 has been closed while the session file exists. -/
def sample_dead_world : World := sample_world [2, 3] (sample_file 1 "abc")

/-! # Theorems -/

/-! ## Basic facts -/

theorem find_tab_iff (ts : List Nat) (t : Nat) : find_tab ts t = true ↔ t ∈ ts := by
  induction ts with
  | nil => simp [find_tab]
  | cons x xs ih =>
    by_cases hx : x = t
    · simp [find_tab, hx]
    · have hx2 : ¬ t = x := fun h => hx h.symm
      simp [find_tab, hx, hx2, ih]

theorem find_tab_of_not_mem (ts : List Nat) (t : Nat) (h : t ∉ ts) : find_tab ts t = false := by
  cases hf : find_tab ts t with
  | false => rfl
  | true => exact absurd ((find_tab_iff ts t).1 hf) h

theorem lookup_filter_ne (path : List Char) (l : List (List Char × File)) :
    (l.filter (fun e => e.1 != path)).lookup path = none := by
  induction l with
  | nil => rfl
  | cons e es ih =>
    obtain ⟨k, v⟩ := e
    by_cases he : k = path
    · have h1 : (k != path) = false := by simp [he]
      rw [List.filter_cons]
      simp only [h1]
      exact ih
    · have h1 : (k != path) = true := by simp [he]
      have h2 : (path == k) = false := by
        simp only [beq_eq_false_iff_ne, ne_eq]
        exact fun h => he h.symm
      rw [List.filter_cons]
      simp only [h1, if_true, List.lookup_cons, h2]
      exact ih

theorem lookup_unlink (w : World) (path : List Char) : (unlink w path).fs.lookup path = none :=
  lookup_filter_ne path w.fs

/-- When `stat` finds the file with the recorded modification time, or fails with an errno other
than ENOENT, `update_contents` returns 0 and changes nothing. -/
theorem update_contents_unchanged (g : Globals) (env : Env) (w : World) (a : external_editor_args)
    (f : File) (hf : w.fs.lookup a.path = some f) (hm : f.mtime = a.mtime) :
    update_contents g env w a = Run.done (0, a, w) := by
  unfold update_contents stat
  cases env.stat_fail <;> simp [hf, hm]

theorem cstr_fill_store (l t : List Char) (hn : NUL ∉ l) :
    cstr (l ++ t.set 0 NUL) = l := by
  induction l with
  | nil =>
    cases t with
    | nil => rfl
    | cons x xs => simp [cstr]
  | cons c cs ih =>
    have hc : (c != NUL) = true := by
      simp only [bne_iff_ne, ne_eq]
      exact fun h => hn (by simp [h])
    have hcs : NUL ∉ cs := fun h => hn (by simp [h])
    have h2 := ih hcs
    simp only [cstr] at h2 ⊢
    rw [List.cons_append, List.takeWhile_cons, hc]
    simp only [if_true, h2]

/-- A read that fills the whole buffer makes the store `buf[nb] = 0` fall outside `buf`. -/
theorem buf_store_full (g : Globals) (buf : List Char) (c : Char) :
    buf_store g buf g.XT_EE_BUFSZ c = none := by
  simp [buf_store]

theorem read_loop_short (g : Globals) (env : Env) (fuel : Nat) (data buf : List Char)
    (hr : env.read_fail = none) (hlen : data.length < g.XT_EE_BUFSZ) (hn : NUL ∉ data) :
    read_loop g env (fuel + 1) 0 data buf [] = Run.done (some data) := by
  have ht : data.take g.XT_EE_BUFSZ = data := List.take_of_length_le (Nat.le_of_lt hlen)
  simp only [read_loop, hr, ht, buf_store, buf_fill, hlen, if_true]
  simp [cstr_fill_store data _ hn]

/-- If the file is newer than the session, shorter than the buffer, free of NUL bytes and readable,
`update_contents` records the new time and calls the callback once with the whole content. -/
theorem update_contents_short_content (g : Globals) (env : Env) (w : World)
    (a : external_editor_args) (f : File) (fn : Nat)
    (hs : env.stat_fail = false) (ho : env.open_fail = false) (hr : env.read_fail = none)
    (hf : w.fs.lookup a.path = some f) (hm : a.mtime < f.mtime)
    (hlen : f.data.length < g.XT_EE_BUFSZ) (hn : NUL ∉ f.data) (hc : a.callback = some fn) :
    update_contents g env w a = Run.done (0, { a with mtime := f.mtime },
      { w with calls := w.calls ++ [{ fn := fn, contents := f.data, cb_data := a.cb_data }] }) := by
  unfold update_contents stat open_rdonly
  simp only [hs, ho, hf, gt_iff_lt, hm, if_true, Bool.false_eq_true, if_false]
  rw [read_loop_short g env f.data.length f.data _ hr hlen hn]
  simp [hc]

/-- With one more byte in the buffer the read loop returns the whole content of the file, for
every length, chunk by chunk. -/
theorem read_loop_roomy_full (g : Globals) (env : Env) (hb : 0 < g.XT_EE_BUFSZ)
    (hr : env.read_fail = none) :
    ∀ (fuel k : Nat) (rest buf contents : List Char), NUL ∉ rest → rest.length < fuel →
      read_loop_roomy g env fuel k rest buf contents = Run.done (some (contents ++ rest)) := by
  intro fuel
  induction fuel with
  | zero => intro k rest buf contents _ hf; exact absurd hf (Nat.not_lt_zero _)
  | succ fuel ih =>
    intro k rest buf contents hn hf
    have hchunk : NUL ∉ rest.take g.XT_EE_BUFSZ := fun h => hn (List.mem_of_mem_take h)
    have hle : (rest.take g.XT_EE_BUFSZ).length < g.XT_EE_BUFSZ + 1 := by
      simp only [List.length_take]; omega
    have hc : cstr ((buf_fill buf (rest.take g.XT_EE_BUFSZ)).set
        (rest.take g.XT_EE_BUFSZ).length NUL) = rest.take g.XT_EE_BUFSZ := by
      have := cstr_fill_store (rest.take g.XT_EE_BUFSZ)
        (buf.drop (rest.take g.XT_EE_BUFSZ).length) hchunk
      simpa [buf_fill] using this
    have hk : ¬ env.read_fail = some k := by simp [hr]
    rw [read_loop_roomy, if_neg hk]
    simp only [hle, if_true, hc]
    by_cases hlt : (rest.take g.XT_EE_BUFSZ).length < g.XT_EE_BUFSZ
    · have hall : rest.take g.XT_EE_BUFSZ = rest := by
        apply List.take_of_length_le
        simp only [List.length_take] at hlt; omega
      rw [if_pos hlt, hall]
    · have hlen : g.XT_EE_BUFSZ ≤ rest.length := by
        simp only [List.length_take] at hlt; omega
      have hdrop : NUL ∉ rest.drop g.XT_EE_BUFSZ := fun h => hn (List.mem_of_mem_drop h)
      have := ih (k + 1) (rest.drop g.XT_EE_BUFSZ)
        ((buf_fill buf (rest.take g.XT_EE_BUFSZ)).set (rest.take g.XT_EE_BUFSZ).length NUL)
        (contents ++ rest.take g.XT_EE_BUFSZ) hdrop (by simp only [List.length_drop]; omega)
      simp only [hlt, if_false, this, List.append_assoc, List.take_append_drop]

/-- A read that returns a full chunk makes the read loop fault at the store of the NUL. -/
theorem read_loop_fault (g : Globals) (env : Env) (fuel k : Nat)
    (rest buf contents : List Char) (hr : env.read_fail ≠ some k)
    (hlen : g.XT_EE_BUFSZ ≤ rest.length) :
    read_loop g env (fuel + 1) k rest buf contents = Run.fault := by
  have hl : (rest.take g.XT_EE_BUFSZ).length = g.XT_EE_BUFSZ := by
    simp [List.length_take, hlen]
  simp only [read_loop, hr, if_false, hl, buf_store_full]

/-- If the file is newer than the session, readable, and at least as long as the buffer,
`update_contents` faults in its first pass through the read loop. -/
theorem update_contents_fault (g : Globals) (env : Env) (w : World)
    (a : external_editor_args) (f : File)
    (hs : env.stat_fail = false) (ho : env.open_fail = false) (hr : env.read_fail = none)
    (hf : w.fs.lookup a.path = some f) (hm : a.mtime < f.mtime)
    (hlen : g.XT_EE_BUFSZ ≤ f.data.length) :
    update_contents g env w a = Run.fault := by
  unfold update_contents stat open_rdonly
  simp only [hs, ho, hf, gt_iff_lt, hm, if_true, Bool.false_eq_true, if_false]
  rw [read_loop_fault g env f.data.length 0 f.data _ [] (by simp [hr]) hlen]

/-- C10: in the read loop of `update_contents`, whenever at least `XT_EE_BUFSZ` bytes are left in
the file the read returns the count `nb = XT_EE_BUFSZ`, the store `buf[nb] = 0` is outside
`char buf[XT_EE_BUFSZ]` (its last element is `buf[XT_EE_BUFSZ - 1]`), and the loop takes the
out-of-bounds branch. -/
theorem read_store_out_of_bounds (g : Globals) (env : Env) (fuel k : Nat)
    (rest buf contents : List Char) (hr : env.read_fail ≠ some k)
    (hlen : g.XT_EE_BUFSZ ≤ rest.length) :
    (rest.take g.XT_EE_BUFSZ).length = g.XT_EE_BUFSZ ∧
    buf_store g (buf_fill buf (rest.take g.XT_EE_BUFSZ)) (rest.take g.XT_EE_BUFSZ).length NUL
      = none ∧
    read_loop g env (fuel + 1) k rest buf contents = Run.fault := by
  have hl : (rest.take g.XT_EE_BUFSZ).length = g.XT_EE_BUFSZ := by
    simp [List.length_take, hlen]
  refine ⟨hl, ?_, read_loop_fault g env fuel k rest buf contents hr hlen⟩
  rw [hl]
  exact buf_store_full g _ NUL

theorem read_store_out_of_bounds_witness :
    ("abcd".toList.take sample_globals.XT_EE_BUFSZ).length = sample_globals.XT_EE_BUFSZ ∧
    buf_store sample_globals
        (buf_fill (buf_init sample_globals sample_env)
          ("abcd".toList.take sample_globals.XT_EE_BUFSZ))
        ("abcd".toList.take sample_globals.XT_EE_BUFSZ).length NUL = none ∧
    read_loop sample_globals sample_env 1 0 "abcd".toList (buf_init sample_globals sample_env) []
      = Run.fault :=
  read_store_out_of_bounds sample_globals sample_env 0 0 "abcd".toList
    (buf_init sample_globals sample_env) [] (by decide) (by decide)

/-- C1: for a session with a callback whose temp file is newer than the recorded mtime, readable
and free of NUL bytes, `update_contents` calls the callback with the complete content when the
content is shorter than `XT_EE_BUFSZ`; when the content has `XT_EE_BUFSZ` bytes or more (so for
every content longer than the read chunk and every non-empty exact multiple of it) the first
read fills the buffer, the store of the terminating NUL is out of bounds, and no content is
delivered. -/
theorem full_content_read_limit (g : Globals) (env : Env) (w : World)
    (a : external_editor_args) (f : File) (fn : Nat)
    (hs : env.stat_fail = false) (ho : env.open_fail = false) (hr : env.read_fail = none)
    (hf : w.fs.lookup a.path = some f) (hm : a.mtime < f.mtime)
    (hn : NUL ∉ f.data) (hc : a.callback = some fn) :
    (f.data.length < g.XT_EE_BUFSZ →
      update_contents g env w a = Run.done (0, { a with mtime := f.mtime },
        { w with calls := w.calls ++ [{ fn := fn, contents := f.data, cb_data := a.cb_data }] })) ∧
    (g.XT_EE_BUFSZ ≤ f.data.length → update_contents g env w a = Run.fault) :=
  ⟨fun hlen => update_contents_short_content g env w a f fn hs ho hr hf hm hlen hn hc,
   fun hlen => update_contents_fault g env w a f hs ho hr hf hm hlen⟩

theorem full_content_read_limit_witness :
    update_contents sample_globals sample_env (sample_world [1] (sample_file 1 "abc"))
        sample_args
      = Run.done (0, { sample_args with mtime := 1 },
          { (sample_world [1] (sample_file 1 "abc")) with
            calls := [{ fn := 5, contents := "abc".toList, cb_data := 9 }] }) ∧
    update_contents sample_globals sample_env (sample_world [1] (sample_file 1 "abcdefgh"))
      sample_args = Run.fault :=
  ⟨(full_content_read_limit sample_globals sample_env
      (sample_world [1] (sample_file 1 "abc")) sample_args
      { mtime := 1, data := "abc".toList } 5 rfl rfl rfl (by decide) (by decide) (by decide)
      (by decide)).1 (by decide),
   (full_content_read_limit sample_globals sample_env
      (sample_world [1] (sample_file 1 "abcdefgh")) sample_args
      { mtime := 1, data := "abcdefgh".toList } 5 rfl rfl rfl (by decide) (by decide) (by decide)
      (by decide)).2 (by decide)⟩

/-- One tick on a live tab whose file still has the recorded modification time returns 1 and
changes neither the session nor the world. -/
theorem open_external_editor_cb_unchanged (g : Globals) (env : Env) (w : World)
    (a : external_editor_args) (f : File) (ht : a.tab ∈ w.tabs)
    (hf : w.fs.lookup a.path = some f) (hm : f.mtime = a.mtime) :
    open_external_editor_cb g env w a = Run.done (1, some a, w) := by
  unfold open_external_editor_cb
  rw [(find_tab_iff w.tabs a.tab).2 ht, update_contents_unchanged g env w a f hf hm]
  rfl

/-- C8: for a session whose tab is open and whose temp file exists with the recorded
modification time, any number of consecutive poll ticks (one per element of `envs`) leaves the
world, hence the list of callback invocations, and the session, hence its recorded mtime,
unchanged, keeps the timer installed, and every tick returns 1 ("continue"). -/
theorem no_spurious_fire (g : Globals) (envs : List Env) (w : World)
    (a : external_editor_args) (f : File) (ht : a.tab ∈ w.tabs)
    (hf : w.fs.lookup a.path = some f) (hm : f.mtime = a.mtime) :
    poll_ticks g envs { world := w, sess := some a, timer := true }
      = Run.done ({ world := w, sess := some a, timer := true },
          List.replicate envs.length (some 1)) := by
  induction envs with
  | nil => rfl
  | cons env envs ih =>
    have h1 : poll_tick g env { world := w, sess := some a, timer := true }
        = Run.done ({ world := w, sess := some a, timer := true }, some 1) := by
      simp only [poll_tick, open_external_editor_cb_unchanged g env w a f ht hf hm]
      rfl
    simp only [poll_ticks, h1, ih, List.length_cons, List.replicate_succ]

theorem no_spurious_fire_witness :
    poll_ticks sample_globals [sample_env, sample_env, sample_env]
        (sample_sys (sample_world [1] (sample_file 0 "abc")))
      = Run.done (sample_sys (sample_world [1] (sample_file 0 "abc")),
          [some 1, some 1, some 1]) :=
  no_spurious_fire sample_globals [sample_env, sample_env, sample_env]
    (sample_world [1] (sample_file 0 "abc")) sample_args { mtime := 0, data := "abc".toList }
    (by decide) (by decide) (by decide)

/-- Each handler run on an allocated session block whose tab is not in the list of live tabs:
the poll tick leaves the world as it is, the exit notification invokes no callback, deletes the
temp file and closes the process handle. -/
theorem dead_tab_handlers (g : Globals) (env : Env) (w : World) (a : external_editor_args)
    (pid : Nat) (status : Int) (ht : a.tab ∉ w.tabs) :
    open_external_editor_cb g env w a = Run.done (0, none, w) ∧
    ∃ w1, external_editor_closed g env w pid status a = Run.done (a, w1) ∧
      w1.calls = w.calls ∧ w1.fs.lookup a.path = none ∧
      w1.closed_pids = w.closed_pids ++ [pid] := by
  have hft := find_tab_of_not_mem w.tabs a.tab ht
  refine ⟨?_, ?_⟩
  · simp [open_external_editor_cb, hft]
  · refine ⟨{ (unlink w a.path) with closed_pids := w.closed_pids ++ [pid] }, ?_, rfl, ?_, rfl⟩
    · simp [external_editor_closed, hft, unlink]
    · exact lookup_unlink w a.path

/-- Once the block is released and the timer removed, further ticks do nothing. -/
theorem poll_ticks_released (g : Globals) (envs : List Env) (w : World) :
    poll_ticks g envs { world := w, sess := none, timer := false }
      = Run.done ({ world := w, sess := none, timer := false },
          List.replicate envs.length none) := by
  induction envs with
  | nil => rfl
  | cons env envs ih =>
    have h1 : poll_tick g env { world := w, sess := none, timer := false }
        = Run.done ({ world := w, sess := none, timer := false }, none) := rfl
    simp only [poll_ticks, h1, ih, List.length_cons, List.replicate_succ]

/-- C4: for a session whose tab is not in the list of live tabs, a poll tick invokes no callback
and leaves the world as it is, but it releases the session block and removes the timer; an exit
notification that arrives after one or more such ticks then works on the released block and
faults, so the temp file is not deleted. Only when the exit notification arrives before any tick
does it skip the callback, delete the temp file and close the process handle. -/
theorem dead_tab_exit_after_tick_faults (g : Globals) (env0 : Env) (envs : List Env) (env : Env)
    (status : Int) (w : World) (a : external_editor_args) (ht : a.tab ∉ w.tabs) :
    poll_tick g env0 { world := w, sess := some a, timer := true }
      = Run.done ({ world := w, sess := none, timer := false }, some 0) ∧
    ticks_then_exit g (env0 :: envs) env status { world := w, sess := some a, timer := true }
      = Run.fault ∧
    ∃ w1, ticks_then_exit g [] env status { world := w, sess := some a, timer := true }
        = Run.done { world := w1, sess := some a, timer := true } ∧
      w1.calls = w.calls ∧ w1.fs.lookup a.path = none ∧
      w1.closed_pids = w.closed_pids ++ [a.child_pid] := by
  have hft := find_tab_of_not_mem w.tabs a.tab ht
  have hcb : open_external_editor_cb g env0 w a = Run.done (0, none, w) := by
    simp [open_external_editor_cb, hft]
  have htick : poll_tick g env0 { world := w, sess := some a, timer := true }
      = Run.done ({ world := w, sess := none, timer := false }, some 0) := by
    simp only [poll_tick, hcb]
    rfl
  refine ⟨htick, ?_, ?_⟩
  · simp only [ticks_then_exit, poll_ticks, htick, poll_ticks_released]
    rfl
  · refine ⟨{ (unlink w a.path) with closed_pids := w.closed_pids ++ [a.child_pid] },
      ?_, rfl, lookup_unlink w a.path, rfl⟩
    simp [ticks_then_exit, poll_ticks, child_exit, external_editor_closed, hft, unlink]

theorem dead_tab_exit_after_tick_faults_witness :
    poll_tick sample_globals sample_env (sample_sys sample_dead_world)
      = Run.done ({ world := sample_dead_world, sess := none, timer := false }, some 0) ∧
    ticks_then_exit sample_globals [sample_env] sample_env 0 (sample_sys sample_dead_world)
      = Run.fault ∧
    ∃ w1, ticks_then_exit sample_globals [] sample_env 0 (sample_sys sample_dead_world)
        = Run.done (sample_sys w1) ∧
      w1.calls = sample_dead_world.calls ∧ w1.fs.lookup sample_args.path = none ∧
      w1.closed_pids = sample_dead_world.closed_pids ++ [7] :=
  dead_tab_exit_after_tick_faults sample_globals sample_env [] sample_env 0
    sample_dead_world sample_args (by decide)

/-- C5, as the code behaves: on a live tab with the temp file missing, the poll tick returns 0
and releases the session block, where the claim has it return nonzero and keep the session. -/
theorem missing_file_tick_stops :
    open_external_editor_cb sample_globals sample_env (sample_world [1] []) sample_args
      = Run.done (0, none, sample_world [1] []) := by
  decide

/-- C5 amended: for a session whose tab is open, a poll tick whose `stat` reports the temp file
missing (ENOENT) invokes no callback and changes nothing in the world, releases the session
block and returns 0, so that the timeout source is removed and polling stops. -/
theorem missing_file_tick_ends_polling (g : Globals) (env : Env) (w : World)
    (a : external_editor_args) (ht : a.tab ∈ w.tabs)
    (hs : stat env w a.path = StatRes.enoent) :
    open_external_editor_cb g env w a = Run.done (0, none, w) ∧
    poll_tick g env { world := w, sess := some a, timer := true }
      = Run.done ({ world := w, sess := none, timer := false }, some 0) := by
  have h1 : open_external_editor_cb g env w a = Run.done (0, none, w) := by
    simp [open_external_editor_cb, (find_tab_iff w.tabs a.tab).2 ht, update_contents, hs]
  refine ⟨h1, ?_⟩
  simp only [poll_tick, h1]
  rfl

theorem missing_file_tick_ends_polling_witness :
    open_external_editor_cb sample_globals sample_env (sample_world [1] []) sample_args
      = Run.done (0, none, sample_world [1] []) ∧
    poll_tick sample_globals sample_env (sample_sys (sample_world [1] []))
      = Run.done ({ world := sample_world [1] [], sess := none, timer := false }, some 0) :=
  missing_file_tick_ends_polling sample_globals sample_env (sample_world [1] []) sample_args
    (by decide) (by decide)

/-- C7, as the code behaves: with no editor configured `open_external_editor` returns 0, the
value it also returns on success, where the claim has it return nonzero. -/
theorem not_configured_returns_zero :
    open_external_editor { sample_globals with external_editor := none } sample_launch 20
        (sample_world [1] []) 1 (some "hello".toList) (some 5) 9
      = Run.done (0, sample_world [1] []) ∧
    return_value (open_external_editor sample_globals sample_launch 20
        (sample_world [1] []) 1 (some "hello".toList) (some 5) 9) = some 0 :=
  ⟨by decide, by decide⟩

/-- C7 amended: when `external_editor` is NULL, `open_external_editor` returns 0 (the value it
also returns on success) for every content, tab and callback, and leaves the world as it is: no
temp file, no process, no session, no message. -/
theorem not_configured_is_silent (g : Globals) (le : LaunchEnv) (fuel : Nat) (w : World)
    (t : Nat) (contents : Option (List Char)) (callback : Option Nat) (cb_data : Nat)
    (hg : g.external_editor = none) :
    open_external_editor g le fuel w t contents callback cb_data = Run.done (0, w) := by
  simp [open_external_editor, hg]

theorem not_configured_is_silent_witness :
    open_external_editor { sample_globals with external_editor := none } sample_launch 20
        (sample_world [1] []) 1 (some "hello".toList) (some 5) 9
      = Run.done (0, sample_world [1] []) :=
  not_configured_is_silent { sample_globals with external_editor := none } sample_launch 20
    (sample_world [1] []) 1 (some "hello".toList) (some 5) 9 rfl

/-- A tick on a session whose file is missing leaves the world as it is, and either stops
(returning 0) or, when `stat` failed for another reason, keeps the session. -/
theorem open_external_editor_cb_missing (g : Globals) (env : Env) (w : World)
    (a : external_editor_args) (hf : w.fs.lookup a.path = none) :
    open_external_editor_cb g env w a = Run.done (0, none, w) ∨
    open_external_editor_cb g env w a = Run.done (1, some a, w) := by
  unfold open_external_editor_cb update_contents stat
  cases find_tab w.tabs a.tab <;> cases env.stat_fail <;> simp [hf]

/-- Ticks after the temp file was deleted never change the world. -/
theorem poll_ticks_missing (g : Globals) (envs : List Env) (s : Sys)
    (h : s.timer = true → ∃ a, s.sess = some a ∧ s.world.fs.lookup a.path = none) :
    ∃ s1 rvs, poll_ticks g envs s = Run.done (s1, rvs) ∧ s1.world = s.world := by
  induction envs generalizing s with
  | nil => exact ⟨s, [], rfl, rfl⟩
  | cons env envs ih =>
    have step : ∃ s1 rv, poll_tick g env s = Run.done (s1, rv) ∧ s1.world = s.world ∧
        (s1.timer = true → ∃ a, s1.sess = some a ∧ s1.world.fs.lookup a.path = none) := by
      cases ht : s.timer with
      | false =>
        refine ⟨s, none, ?_, rfl, ?_⟩
        · simp [poll_tick, ht]
        · intro h2; rw [ht] at h2; exact absurd h2 Bool.false_ne_true
      | true =>
        obtain ⟨a, hs, hf⟩ := h ht
        rcases open_external_editor_cb_missing g env s.world a hf with h0 | h1
        · refine ⟨{ world := s.world, sess := none, timer := false }, some 0, ?_, rfl, ?_⟩
          · simp only [poll_tick, ht, hs, h0]; rfl
          · intro h2; exact absurd h2 Bool.false_ne_true
        · refine ⟨{ world := s.world, sess := some a, timer := true }, some 1, ?_, rfl, ?_⟩
          · simp only [poll_tick, ht, hs, h1]; rfl
          · intro _; exact ⟨a, rfl, hf⟩
    obtain ⟨s1, rv, h1, hw, hinv⟩ := step
    obtain ⟨s2, rvs, h2, hw2⟩ := ih s1 hinv
    refine ⟨s2, rv :: rvs, ?_, hw2.trans hw⟩
    simp only [poll_ticks, h1, h2]

/-- C3: for a session with a callback whose tab is open, when the editor has left new content
(free of NUL bytes, readable, newer than the recorded mtime) that no tick has seen and exits,
the exit notification followed by any number of poll ticks invokes the callback exactly once,
with the final content, provided the content is shorter than `XT_EE_BUFSZ`; when the content
has `XT_EE_BUFSZ` bytes or more, the exit notification faults in the read loop of
`update_contents` and the final edit is not delivered. -/
theorem final_edit_limit (g : Globals) (env : Env) (status : Int) (envs : List Env) (w : World)
    (a : external_editor_args) (f : File) (fn : Nat) (ht : a.tab ∈ w.tabs)
    (hs : env.stat_fail = false) (ho : env.open_fail = false) (hr : env.read_fail = none)
    (hf : w.fs.lookup a.path = some f) (hm : a.mtime < f.mtime)
    (hn : NUL ∉ f.data) (hc : a.callback = some fn) :
    (f.data.length < g.XT_EE_BUFSZ →
      ∃ s1 rvs, exit_then_ticks g env status envs { world := w, sess := some a, timer := true }
          = Run.done (s1, rvs) ∧
        s1.world.calls = w.calls ++ [{ fn := fn, contents := f.data, cb_data := a.cb_data }]) ∧
    (g.XT_EE_BUFSZ ≤ f.data.length →
      exit_then_ticks g env status envs { world := w, sess := some a, timer := true }
        = Run.fault) := by
  have hft := (find_tab_iff w.tabs a.tab).2 ht
  constructor
  · intro hlen
    have hu := update_contents_short_content g env w a f fn hs ho hr hf hm hlen hn hc
    have hx : external_editor_closed g env w a.child_pid status a
        = Run.done ({ a with mtime := f.mtime },
            { (unlink { w with calls := w.calls ++
                [{ fn := fn, contents := f.data, cb_data := a.cb_data }] } a.path) with
              closed_pids := w.closed_pids ++ [a.child_pid] }) := by
      simp only [external_editor_closed, hft, hu]
      rfl
    obtain ⟨s1, rvs, h1, hw⟩ := poll_ticks_missing g envs
      { world := { (unlink { w with calls := w.calls ++
            [{ fn := fn, contents := f.data, cb_data := a.cb_data }] } a.path) with
          closed_pids := w.closed_pids ++ [a.child_pid] },
        sess := some { a with mtime := f.mtime }, timer := true }
      (fun _ => ⟨_, rfl, lookup_unlink _ a.path⟩)
    refine ⟨s1, rvs, ?_, ?_⟩
    · simp only [exit_then_ticks, child_exit, hx]
      exact h1
    · rw [hw]; rfl
  · intro hlen
    have hu := update_contents_fault g env w a f hs ho hr hf hm hlen
    simp only [exit_then_ticks, child_exit, external_editor_closed, hft, hu]
    rfl

/-- Once the session block is released, the exit notification reads freed memory. -/
theorem exit_after_release_faults (g : Globals) (env : Env) (status : Int) (w : World)
    (timer : Bool) :
    child_exit g env status { world := w, sess := none, timer := timer } = Run.fault :=
  rfl

theorem final_edit_limit_witness :
    (∃ s1 rvs, exit_then_ticks sample_globals sample_env 0 [sample_env, sample_env]
        (sample_sys (sample_world [1] (sample_file 1 "abc"))) = Run.done (s1, rvs) ∧
      s1.world.calls = [{ fn := 5, contents := "abc".toList, cb_data := 9 }]) ∧
    exit_then_ticks sample_globals sample_env 0 [sample_env, sample_env]
        (sample_sys (sample_world [1] (sample_file 1 "abcd")))
      = Run.fault :=
  ⟨(final_edit_limit sample_globals sample_env 0 [sample_env, sample_env]
      (sample_world [1] (sample_file 1 "abc")) sample_args
      { mtime := 1, data := "abc".toList } 5 (by decide) rfl rfl rfl (by decide) (by decide)
      (by decide) (by decide)).1 (by decide),
   (final_edit_limit sample_globals sample_env 0 [sample_env, sample_env]
      (sample_world [1] (sample_file 1 "abcd")) sample_args
      { mtime := 1, data := "abcd".toList } 5 (by decide) rfl rfl rfl (by decide) (by decide)
      (by decide) (by decide)).2 (by decide)⟩

theorem lookup_put_file (w : World) (path : List Char) (f : File) :
    (put_file w path f).fs.lookup path = some f := by
  simp [put_file, List.lookup]

/-- Invariant of the write loop: with `nb` bytes written so far, equal to the first `nb` bytes of
the content, and every `write` returning between 1 and the count asked for, the loop ends
normally with the file holding the content. -/
theorem write_loop_inv (g : Globals) (le : LaunchEnv) (contents : List Char)
    (hb : 0 < g.XT_EE_BUFSZ)
    (hw : ∀ k cnt, 0 < cnt → 1 ≤ le.write k cnt ∧ le.write k cnt ≤ cnt) :
    ∀ (fuel k nb : Nat) (written : List Char), nb ≤ contents.length →
      written = contents.take nb → contents.length - nb < fuel →
      write_loop g le contents fuel k nb written = Run.done (true, contents) := by
  intro fuel
  induction fuel with
  | zero => intro k nb written _ _ hfuel; exact absurd hfuel (Nat.not_lt_zero _)
  | succ fuel ih =>
    intro k nb written hnb hwr hfuel
    by_cases hlt : nb < contents.length
    · obtain ⟨cnt, hcnt⟩ : ∃ cnt, cnt = (if contents.length - nb > g.XT_EE_BUFSZ
          then g.XT_EE_BUFSZ else contents.length - nb) := ⟨_, rfl⟩
      have hcpos : 0 < cnt := by
        rw [hcnt]; split <;> omega
      have hcle : cnt ≤ contents.length - nb := by
        rw [hcnt]; split <;> omega
      obtain ⟨h1, h2⟩ := hw k cnt hcpos
      obtain ⟨r, hr⟩ : ∃ r : Nat, le.write k cnt = (r : Int) :=
        ⟨(le.write k cnt).toNat, (Int.toNat_of_nonneg (by omega)).symm⟩
      have hr1 : 1 ≤ r := by omega
      have hr2 : r ≤ cnt := by omega
      have hneg : ¬ ((r : Int) < 0) := by omega
      have hstep : write_loop g le contents (fuel + 1) k nb written
          = write_loop g le contents fuel (k + 1) (nb + r)
              (written ++ (((contents.drop nb).take cnt).take r)) := by
        rw [write_loop]
        simp only [hlt, if_true, ← hcnt, hr, hneg, if_false, Int.toNat_ofNat]
      rw [hstep]
      apply ih
      · omega
      · rw [hwr, List.take_take, Nat.min_eq_left hr2, List.take_add]
      · omega
    · have hnb2 : nb = contents.length := by omega
      rw [write_loop]
      simp only [hlt, if_false]
      rw [hwr, hnb2, List.take_length]

/-- C2: when every `write` call of the write loop of `open_external_editor` succeeds, returning
a count between 1 and the number of bytes it was asked to write (possibly fewer), the loop
finishes, and the bytes written to the temp file, in order, are exactly `contents`: the file that
`g_mkstemp` created holds `contents` when the function returns. -/
theorem verbatim_write (g : Globals) (le : LaunchEnv) (fuel : Nat) (w : World) (t : Nat)
    (contents editor filename : List Char) (callback : Option Nat) (cb_data : Nat)
    (hb : 0 < g.XT_EE_BUFSZ)
    (hw : ∀ k cnt, 0 < cnt → 1 ≤ le.write k cnt ∧ le.write k cnt ≤ cnt)
    (hfuel : contents.length < fuel)
    (hg : g.external_editor = some editor)
    (hmk : le.mkstemp ((g.temp_dir ++ g.PS ++ "xombreroXXXXXX".toList).take (g.PATH_MAX - 1))
      = some filename) :
    write_loop g le contents fuel 0 0 [] = Run.done (true, contents) ∧
    ∃ rv w1, open_external_editor g le fuel w t (some contents) callback cb_data
        = Run.done (rv, w1) ∧
      w1.fs.lookup filename = some { mtime := le.now, data := contents } := by
  have hloop := write_loop_inv g le contents hb hw fuel 0 0 [] (Nat.zero_le _) rfl
    (by simpa using hfuel)
  refine ⟨hloop, ?_⟩
  unfold open_external_editor
  simp only [hg, hmk, Option.getD_some, hloop]
  cases le.fstat_fail <;> cases hsp : le.spawn (spawn_argv editor filename) <;>
    simp [put_file] <;> refine ⟨_, _, ⟨rfl, rfl⟩, ?_⟩ <;> simp [List.lookup]

theorem verbatim_write_witness :
    write_loop sample_globals sample_launch "hello world".toList 20 0 0 []
      = Run.done (true, "hello world".toList) ∧
    ∃ rv w1, open_external_editor sample_globals sample_launch 20 (sample_world [1] []) 1
        (some "hello world".toList) (some 5) 9 = Run.done (rv, w1) ∧
      w1.fs.lookup sample_filename
        = some { mtime := sample_launch.now, data := "hello world".toList } :=
  verbatim_write sample_globals sample_launch 20 (sample_world [1] []) 1
    "hello world".toList "vi <file>".toList sample_filename (some 5) 9 (by decide)
    (by intro k cnt h; simp only [sample_launch]; omega) (by decide) rfl (by decide)

/-- Every nonzero value that `open_external_editor` returns after `g_mkstemp` created the temp
file is 1, with no timer and no child watch registered and the temp file still in place. -/
theorem nonzero_return_keeps_file (g : Globals) (le : LaunchEnv) (fuel : Nat) (w w1 : World)
    (t : Nat) (contents : Option (List Char)) (callback : Option Nat) (cb_data : Nat)
    (editor filename : List Char) (rv : Int)
    (hg : g.external_editor = some editor)
    (hmk : le.mkstemp ((g.temp_dir ++ g.PS ++ "xombreroXXXXXX".toList).take (g.PATH_MAX - 1))
      = some filename)
    (hrun : open_external_editor g le fuel w t contents callback cb_data = Run.done (rv, w1))
    (hfail : rv ≠ 0) :
    rv = 1 ∧ w1.timers = w.timers ∧ w1.watches = w.watches ∧
    ∃ f, w1.fs.lookup filename = some f := by
  unfold open_external_editor at hrun
  simp only [hg, hmk] at hrun
  cases hl : write_loop g le (contents.getD []) fuel 0 0 [] with
  | fault => rw [hl] at hrun; cases hrun
  | diverge => rw [hl] at hrun; cases hrun
  | done r =>
    obtain ⟨ok, written⟩ := r
    rw [hl] at hrun
    simp only at hrun
    have hlk := lookup_put_file w filename { mtime := le.now, data := written }
    cases ok with
    | false =>
      simp only [Bool.not_false, if_true, Run.done.injEq, Prod.mk.injEq] at hrun
      obtain ⟨h1, h2⟩ := hrun
      subst h2
      exact ⟨h1.symm, rfl, rfl, _, hlk⟩
    | true =>
      cases hfs : le.fstat_fail with
      | true =>
        simp only [hfs, Bool.not_true, Bool.false_eq_true, if_false, if_true, Run.done.injEq,
          Prod.mk.injEq] at hrun
        obtain ⟨h1, h2⟩ := hrun
        subst h2
        exact ⟨h1.symm, rfl, rfl, _, hlk⟩
      | false =>
        cases hsp : le.spawn (spawn_argv editor filename) with
        | none =>
          simp only [hfs, hsp, Bool.not_true, Bool.false_eq_true, if_false, Run.done.injEq,
            Prod.mk.injEq] at hrun
          obtain ⟨h1, h2⟩ := hrun
          subst h2
          exact ⟨h1.symm, rfl, rfl, _, hlk⟩
        | some pid =>
          simp only [hfs, hsp, Bool.not_true, Bool.false_eq_true, if_false, Run.done.injEq,
            Prod.mk.injEq] at hrun
          exact absurd hrun.1.symm hfail

/-- Every call of `g_spawn_async` that `open_external_editor` makes gets the vector
`spawn_argv editor filename`. -/
theorem open_external_editor_spawns (g : Globals) (le : LaunchEnv) (fuel : Nat) (w w1 : World)
    (t : Nat) (contents : Option (List Char)) (callback : Option Nat) (cb_data : Nat)
    (editor filename : List Char) (rv : Int)
    (hg : g.external_editor = some editor)
    (hmk : le.mkstemp ((g.temp_dir ++ g.PS ++ "xombreroXXXXXX".toList).take (g.PATH_MAX - 1))
      = some filename)
    (hrun : open_external_editor g le fuel w t contents callback cb_data = Run.done (rv, w1)) :
    w1.spawns = w.spawns ∨
    w1.spawns = w.spawns ++ [(spawn_argv editor filename, le.spawn (spawn_argv editor filename))] := by
  unfold open_external_editor at hrun
  simp only [hg, hmk] at hrun
  cases hl : write_loop g le (contents.getD []) fuel 0 0 [] with
  | fault => rw [hl] at hrun; cases hrun
  | diverge => rw [hl] at hrun; cases hrun
  | done r =>
    obtain ⟨ok, written⟩ := r
    rw [hl] at hrun
    simp only at hrun
    cases ok with
    | false =>
      simp only [Bool.not_false, if_true, Run.done.injEq, Prod.mk.injEq] at hrun
      obtain ⟨_, h2⟩ := hrun
      subst h2
      exact Or.inl rfl
    | true =>
      cases hfs : le.fstat_fail with
      | true =>
        simp only [hfs, Bool.not_true, Bool.false_eq_true, if_false, if_true, Run.done.injEq,
          Prod.mk.injEq] at hrun
        obtain ⟨_, h2⟩ := hrun
        subst h2
        exact Or.inl rfl
      | false =>
        cases hsp : le.spawn (spawn_argv editor filename) with
        | none =>
          simp only [hfs, hsp, Bool.not_true, Bool.false_eq_true, if_false, Run.done.injEq,
            Prod.mk.injEq] at hrun
          obtain ⟨_, h2⟩ := hrun
          subst h2
          exact Or.inr rfl
        | some pid =>
          simp only [hfs, hsp, Bool.not_true, Bool.false_eq_true, if_false, Run.done.injEq,
            Prod.mk.injEq] at hrun
          obtain ⟨_, h2⟩ := hrun
          subst h2
          exact Or.inr rfl

/-! ## The command line -/

theorem g_strsplit_go_ne_nil (delim : List Char) (s : List Char) :
    ∀ (skip : Nat) (cur : List Char), g_strsplit_go delim skip s cur ≠ [] := by
  induction s with
  | nil => intro skip cur; simp [g_strsplit_go]
  | cons c s ih =>
    intro skip cur
    cases skip with
    | succ n => rw [g_strsplit_go]; exact ih n cur
    | zero =>
      rw [g_strsplit_go]
      split
      · simp
      · exact ih 0 _

theorem g_strjoinv_cons (sep x : List Char) (l : List (List Char)) (hl : l ≠ []) :
    g_strjoinv sep (x :: l) = x ++ sep ++ g_strjoinv sep l := by
  cases l with
  | nil => exact absurd rfl hl
  | cons y ys => rfl

/-- Splitting at a delimiter and joining with `rep` replaces every occurrence of the delimiter
by `rep`. -/
theorem g_strjoinv_g_strsplit_go (delim rep : List Char) (s : List Char) :
    ∀ (skip : Nat) (cur : List Char),
      g_strjoinv rep (g_strsplit_go delim skip s cur) = cur ++ replace_all delim rep skip s := by
  induction s with
  | nil => intro skip cur; simp [g_strsplit_go, g_strjoinv, replace_all]
  | cons c s ih =>
    intro skip cur
    cases skip with
    | succ n => rw [g_strsplit_go, replace_all]; exact ih n cur
    | zero =>
      rw [g_strsplit_go, replace_all]
      split
      · rw [g_strjoinv_cons _ _ _ (g_strsplit_go_ne_nil delim s _ _), ih]
        simp
      · rw [ih]; simp

theorem cmdstr_eq_substituted (template path : List Char) :
    cmdstr template path = substituted template path := by
  unfold cmdstr substituted g_strsplit
  split
  · next h => subst h; rfl
  · rw [g_strjoinv_g_strsplit_go]; rfl

theorem blanks_contains (c : Char) : blanks.contains c = is_blank c := by
  simp [blanks, is_blank, List.contains, List.elem]
  cases h1 : (c == Char.ofNat 32) <;> cases h2 : (c == Char.ofNat 9) <;> simp_all

theorem filter_g_strsplit_set_go (s : List Char) :
    ∀ cur : List Char,
      (g_strsplit_set_go blanks s cur).filter (fun a => a != []) = words_go s cur := by
  induction s with
  | nil =>
    intro cur
    by_cases h : cur = []
    · simp [g_strsplit_set_go, words_go, List.filter, h]
    · have h2 : (cur != []) = true := bne_iff_ne.2 h
      simp [g_strsplit_set_go, words_go, List.filter, h, h2]
  | cons c s ih =>
    intro cur
    rw [g_strsplit_set_go, words_go, blanks_contains]
    cases hb : is_blank c with
    | true =>
      by_cases h : cur = []
      · simp [List.filter, h, ih]
      · have h2 : (cur != []) = true := bne_iff_ne.2 h
        simp [List.filter, h, h2, ih]
    | false => simp [ih]

theorem g_strsplit_set_go_blank_free (s : List Char) :
    ∀ cur : List Char, (∀ c ∈ cur, is_blank c = false) →
      ∀ a ∈ g_strsplit_set_go blanks s cur, ∀ c ∈ a, is_blank c = false := by
  induction s with
  | nil =>
    intro cur hcur a ha
    simp only [g_strsplit_set_go, List.mem_singleton] at ha
    subst ha; exact hcur
  | cons c s ih =>
    intro cur hcur a ha
    rw [g_strsplit_set_go, blanks_contains] at ha
    cases hb : is_blank c with
    | true =>
      simp only [hb, if_true, List.mem_cons] at ha
      rcases ha with h | h
      · subst h; exact hcur
      · exact ih [] (by simp) a h
    | false =>
      simp only [hb, Bool.false_eq_true, if_false] at ha
      refine ih (cur ++ [c]) ?_ a ha
      intro x hx
      simp only [List.mem_append, List.mem_singleton] at hx
      rcases hx with h | h
      · exact hcur x h
      · subst h; exact hb

theorem length_g_strsplit_set_go (s : List Char) :
    ∀ cur : List Char,
      (g_strsplit_set_go blanks s cur).length = (s.filter is_blank).length + 1 := by
  induction s with
  | nil => intro cur; rfl
  | cons c s ih =>
    intro cur
    rw [g_strsplit_set_go, blanks_contains]
    cases hb : is_blank c <;> simp [List.filter, hb, ih]

/-- C9, as the code behaves: with two spaces in the template `vi  <file>` the argument vector is
`vi`, an empty argument, and the path, while the words of the substituted line are `vi` and the
path. -/
theorem spawn_argv_has_empty_argument :
    spawn_argv "vi  <file>".toList "/tmp/x".toList = ["vi".toList, [], "/tmp/x".toList] ∧
    words (substituted "vi  <file>".toList "/tmp/x".toList) = ["vi".toList, "/tmp/x".toList] ∧
    spawn_argv "vi  <file>".toList "/tmp/x".toList
      ≠ words (substituted "vi  <file>".toList "/tmp/x".toList) := by
  decide

/-- C9 amended: for every command template and every temp-file path, the argument vector handed
to the spawn call is the template with every occurrence of `<file>` replaced by the path, split
at every single space and tab: no argument contains a space or tab, a non-empty line gives one
argument more than it has spaces and tabs (so an empty argument stands wherever two of them are
adjacent or one begins or ends the line), the empty line gives no argument, and the non-empty
arguments are exactly the maximal whitespace-free words of the substituted line, in order; e.g.
the template `vi <file>` and the path `/tmp/x` give `vi` and `/tmp/x`. -/
theorem spawn_argv_fields (template path : List Char) :
    cmdstr template path = substituted template path ∧
    spawn_argv template path = g_strsplit_set (substituted template path) blanks ∧
    (∀ a ∈ spawn_argv template path, ∀ c ∈ a, is_blank c = false) ∧
    (substituted template path ≠ [] →
      (spawn_argv template path).length
        = ((substituted template path).filter is_blank).length + 1) ∧
    (substituted template path = [] → spawn_argv template path = []) ∧
    (spawn_argv template path).filter (fun a => a != []) = words (substituted template path) ∧
    spawn_argv "vi <file>".toList "/tmp/x".toList = ["vi".toList, "/tmp/x".toList] := by
  have hc := cmdstr_eq_substituted template path
  have hs : spawn_argv template path = g_strsplit_set (substituted template path) blanks := by
    rw [spawn_argv, hc]
  refine ⟨hc, hs, ?_, ?_, ?_, ?_, by decide⟩
  · rw [hs, g_strsplit_set]
    split
    · intro a ha; cases ha
    · exact g_strsplit_set_go_blank_free _ [] (by simp)
  · intro hne
    rw [hs, g_strsplit_set, if_neg hne]
    exact length_g_strsplit_set_go _ []
  · intro he
    rw [hs, g_strsplit_set, if_pos he]
  · rw [hs, g_strsplit_set, words]
    split
    · next h => rw [h]; rfl
    · exact filter_g_strsplit_set_go _ []

theorem spawn_argv_fields_witness :
    (spawn_argv " vi\t<file> ".toList "/tmp/x".toList).length = 3 + 1 ∧
    (spawn_argv " vi\t<file> ".toList "/tmp/x".toList).filter (fun a => a != [])
      = words (substituted " vi\t<file> ".toList "/tmp/x".toList) :=
  ⟨(spawn_argv_fields " vi\t<file> ".toList "/tmp/x".toList).2.2.2.1 (by decide),
   (spawn_argv_fields " vi\t<file> ".toList "/tmp/x".toList).2.2.2.2.2.1⟩

end Xombrero
